import Mathlib

/-!
Shallow embedding of `csv2beancount` (src/main.rs): a converter from CSV
transaction rows to beancount text.  Machine decimals (`d128`) are modelled
as exact scaled integers, CSV records as lists of strings, and the printing
loop as a function producing the list of printed lines.
-/

/-- Exact decimal value, modelling the `decimal` crate's `d128` as used by the
program: an integer mantissa together with the number of fractional digits.
Parsing keeps the literal scale, negation flips the mantissa sign. -/
structure Dec where
  mantissa : Int
  scale : Nat
deriving DecidableEq, Repr

/-- Arithmetic negation of a decimal, modelling `d128::neg` (sign flip). -/
def Dec.neg (d : Dec) : Dec := ⟨-d.mantissa, d.scale⟩

/-- The exact rational value of a decimal. -/
def Dec.toRat (d : Dec) : ℚ := (d.mantissa : ℚ) / (10 : ℚ) ^ d.scale

/-- Numeric value of a list of ASCII digit characters. -/
def digitsVal (cs : List Char) : Nat :=
  cs.foldl (fun a c => 10 * a + (c.toNat - 48)) 0

/-- Fuel-driven rendering of the digits of a natural number (most significant
first), accumulating into `acc`. -/
def natDigitsAux : Nat → Nat → List Char → List Char
  | 0, _, acc => acc
  | fuel + 1, n, acc =>
    if n < 10 then Char.ofNat (48 + n) :: acc
    else natDigitsAux fuel (n / 10) (Char.ofNat (48 + n % 10) :: acc)

/-- Decimal string of a natural number. -/
def natToStr (n : Nat) : String := String.mk (natDigitsAux (n + 1) n [])

/-- Modelled from the spec: string parsing of an unsigned decimal numeral
(digits with an optional fractional part) into a mantissa and scale, as the
`decimal` crate's `d128` parser accepts for the plain numerals the
configuration format deals in; anything else fails to parse. -/
def parseUnsignedDec (cs : List Char) : Option Dec :=
  let intPart := cs.takeWhile Char.isDigit
  let rest := cs.dropWhile Char.isDigit
  match rest with
  | [] => if intPart.isEmpty then none else some ⟨(digitsVal intPart : Int), 0⟩
  | '.' :: frac =>
    if frac.all Char.isDigit && (!intPart.isEmpty || !frac.isEmpty) then
      some ⟨(digitsVal (intPart ++ frac) : Int), frac.length⟩
    else none
  | _ => none

/-- Modelled from the spec: `str::parse::<d128>` restricted to plain decimal
numerals with an optional leading sign; any other string fails. -/
def parse_d128 (s : String) : Option Dec :=
  match s.toList with
  | '+' :: rest => parseUnsignedDec rest
  | '-' :: rest => (parseUnsignedDec rest).map Dec.neg
  | cs => parseUnsignedDec cs

/-- Rendering of a decimal back to text, modelling `d128`'s `Display`: the
mantissa digits with a decimal point placed according to the scale. -/
def Dec.render (d : Dec) : String :=
  let sign := if d.mantissa < 0 then "-" else ""
  let digits := natDigitsAux (d.mantissa.natAbs + 1) d.mantissa.natAbs []
  if d.scale = 0 then sign ++ String.mk digits
  else
    let digits :=
      if digits.length ≤ d.scale then
        List.replicate (d.scale + 1 - digits.length) '0' ++ digits
      else digits
    sign ++ String.mk (digits.take (digits.length - d.scale)) ++ "." ++
      String.mk (digits.drop (digits.length - d.scale))

/-- Calendar date, modelling `chrono::NaiveDate`. -/
structure Date where
  year : Nat
  month : Nat
  day : Nat
deriving DecidableEq, Repr

/-- Gregorian leap-year test. -/
def isLeap (y : Nat) : Bool := (y % 4 == 0 && y % 100 != 0) || y % 400 == 0

/-- Number of days in a month of a given year. -/
def daysInMonth (y m : Nat) : Nat :=
  if m = 2 then (if isLeap y then 29 else 28)
  else if m = 4 ∨ m = 6 ∨ m = 9 ∨ m = 11 then 30
  else 31

/-- Split a character list at every occurrence of `c`. -/
def splitOnChar (c : Char) : List Char → List (List Char)
  | [] => [[]]
  | x :: xs =>
    let r := splitOnChar c xs
    if x = c then [] :: r
    else
      match r with
      | [] => [[x]]
      | y :: ys => (x :: y) :: ys

/-- Modelled from the spec: parsing a `YYYY-MM-DD` date string into a valid
calendar date, as `chrono` does for the `%Y-%m-%d` format. -/
def parseDateISO (s : String) : Option Date :=
  match splitOnChar '-' s.toList with
  | [ys, ms, ds] =>
    if ys.length = 4 && ms.length = 2 && ds.length = 2 &&
        (ys ++ ms ++ ds).all Char.isDigit then
      let y := digitsVal ys
      let m := digitsVal ms
      let d := digitsVal ds
      if 1 ≤ m && m ≤ 12 && 1 ≤ d && d ≤ daysInMonth y m then
        some ⟨y, m, d⟩
      else none
    else none
  | _ => none

/-- Modelled from the spec: `NaiveDate::parse_from_str`, implemented for the
`%Y-%m-%d` format exercised by the spec; other formats are out of scope here
and fail. -/
def parse_from_str (s fmt : String) : Option Date :=
  if fmt = "%Y-%m-%d" then parseDateISO s else none

/-- Rendering of a date, modelling `NaiveDate`'s `Display` (`%Y-%m-%d`,
zero-padded). -/
def Date.render (dt : Date) : String :=
  let pad := fun (n w : Nat) =>
    let s := natToStr n
    String.mk (List.replicate (w - s.length) '0') ++ s
  pad dt.year 4 ++ "-" ++ pad dt.month 2 ++ "-" ++ pad dt.day 2

/-- A rule from the optional `transactions` table of the YAML configuration. -/
structure TransactionRule where
  account : Option String
  info : Option String
deriving DecidableEq, Repr

/-- The `csv` section of the YAML configuration, field for field. -/
structure Config where
  currency : String
  processing_account : String
  default_account : String
  date_format : String
  date : Int
  amount_in : Int
  amount_out : Int
  description : Int
  payee : Option Int
  delimiter : Option Char
  skip : Option Int
  toggle_sign : Option Bool
  quote : Option Char
deriving DecidableEq, Repr

/-- The rule table, modelling the `HashMap<String, TransactionRule>`:
exact, case-sensitive key lookup. -/
def rulesGet (rules : List (String × TransactionRule)) (k : String) :
    Option TransactionRule :=
  (rules.find? (fun p => p.1 == k)).map Prod.snd

/-- A transaction to be rendered, field for field as in the source. -/
structure Transaction where
  date : Date
  processing_account : String
  other_account : String
  currency : String
  magnitude : Dec
  payee : Option String
  description : String
deriving DecidableEq, Repr

/-- One posting line of the rendered transaction:
two spaces, account, amount, currency. -/
def postingLine (acct : String) (amt : Dec) (cur : String) : String :=
  "  " ++ acct ++ " " ++ amt.render ++ " " ++ cur

/-- The three lines written by `Display for Transaction`: the header
`{date} * {payee} "{description}"` (the payee slot is `"{payee}"` when
present and empty otherwise), then the two postings, the second with the
negated magnitude. -/
def Transaction.renderLines (t : Transaction) : List String :=
  [ t.date.render ++ " * " ++
      (match t.payee with
       | some p => "\"" ++ p ++ "\""
       | none => "") ++
      " \"" ++ t.description ++ "\"",
    postingLine t.processing_account t.magnitude t.currency,
    postingLine t.other_account t.magnitude.neg t.currency ]

/-- How processing a row can fail: an out-of-bounds record index (a Rust
panic), a date parse failure propagated with `?`, or the formatted amount
error string boxed into the error return. -/
inductive RunError where
  | indexOob : RunError
  | badDate : RunError
  | custom : String → RunError
deriving DecidableEq, Repr

/-- Field access `&record[i as usize]` for an `i64` index: a negative index
casts to a huge `usize`, so any negative or out-of-range index is the same
out-of-bounds failure. -/
def fieldAt (record : List String) (i : Int) : Option String :=
  if i < 0 then none else record.get? i.toNat

/-- The payee extraction:
`config.payee.map(|p| &record[p as usize]).filter(|p| !p.is_empty())`. -/
def getPayee (cfg : Config) (record : List String) :
    Except RunError (Option String) :=
  match cfg.payee with
  | none => .ok none
  | some i =>
    match fieldAt record i with
    | none => .error .indexOob
    | some p => .ok (if p = "" then none else some p)

/-- The amount block of the source: parse the in column, else parse the out
column negated, else fail with the formatted message naming `description`
(the raw row field in scope at that point). -/
def resolveAmt (inS outS description : String) : Except RunError Dec :=
  match parse_d128 inS with
  | some amt => .ok amt
  | none =>
    match parse_d128 outS with
    | some amt => .ok amt.neg
    | none =>
      .error (.custom ("Could not parse either in or out amounts for " ++
        description))

/-- The current applicable rule, if any:
`transaction_rules.as_ref().and_then(|rules| rules.get(description))`. -/
def currentRule (rules : Option (List (String × TransactionRule)))
    (description : String) : Option TransactionRule :=
  rules.bind (fun rs => rulesGet rs description)

/-- Processing of one CSV record into a transaction, following the body of
the `for` loop in `main`: payee, description and date extraction, rule
lookup, then the amount resolution and optional sign toggle. -/
def processRow (cfg : Config) (rules : Option (List (String × TransactionRule)))
    (record : List String) : Except RunError Transaction :=
  match getPayee cfg record with
  | .error e => .error e
  | .ok payee =>
    match fieldAt record cfg.description with
    | none => .error .indexOob
    | some description =>
      match fieldAt record cfg.date with
      | none => .error .indexOob
      | some dateStr =>
        match parse_from_str dateStr cfg.date_format with
        | none => .error .badDate
        | some date =>
          match fieldAt record cfg.amount_in, fieldAt record cfg.amount_out with
          | some inS, some outS =>
            match resolveAmt inS outS description with
            | .error e => .error e
            | .ok amt =>
              .ok { date := date
                    description :=
                      ((currentRule rules description).bind
                        TransactionRule.info).getD description
                    payee := payee
                    processing_account := cfg.processing_account
                    other_account :=
                      ((currentRule rules description).bind
                        TransactionRule.account).getD cfg.default_account
                    magnitude :=
                      if cfg.toggle_sign = some true then amt.neg else amt
                    currency := cfg.currency }
          | _, _ => .error .indexOob

/-- The `skip(config.skip.unwrap_or(0) as usize)` count: the `i64` value cast
to a 64-bit unsigned machine word. -/
def skipCount (cfg : Config) : Nat :=
  (((cfg.skip.getD 0) % (2 : Int) ^ 64)).toNat

/-- The printing loop over the records after the skip, carrying the `first`
flag: every iteration but the first prints one empty line before the
transaction's three lines. -/
def runRows (cfg : Config) (rules : Option (List (String × TransactionRule))) :
    List (List String) → Bool → Except RunError (List String)
  | [], _ => .ok []
  | r :: rs, first =>
    match processRow cfg rules r with
    | .error e => .error e
    | .ok t =>
      match runRows cfg rules rs false with
      | .error e => .error e
      | .ok rest =>
        .ok ((if first then [] else [""]) ++ t.renderLines ++ rest)

/-- The whole conversion: skip the configured number of records, then run the
printing loop; the result is the list of printed lines of stdout. -/
def run (cfg : Config) (rules : Option (List (String × TransactionRule)))
    (rows : List (List String)) : Except RunError (List String) :=
  runRows cfg rules (rows.drop (skipCount cfg)) true

/-- The sequence of transactions a record list processes to, when every
record succeeds. -/
def processAll (cfg : Config) (rules : Option (List (String × TransactionRule))) :
    List (List String) → Except RunError (List Transaction)
  | [] => .ok []
  | r :: rs =>
    match processRow cfg rules r with
    | .error e => .error e
    | .ok t =>
      match processAll cfg rules rs with
      | .error e => .error e
      | .ok ts => .ok (t :: ts)

lemma Dec.toRat_neg (d : Dec) : d.neg.toRat = -d.toRat := by
  simp [Dec.toRat, Dec.neg, neg_div]

/-- Characterisation of a successful row: every extraction step succeeded and
the transaction is built from the extracted pieces exactly as in the source. -/
lemma processRow_ok_iff (cfg : Config)
    (rules : Option (List (String × TransactionRule)))
    (record : List String) (t : Transaction) :
    processRow cfg rules record = .ok t ↔
      ∃ payee description dateStr date inS outS amt,
        getPayee cfg record = .ok payee ∧
        fieldAt record cfg.description = some description ∧
        fieldAt record cfg.date = some dateStr ∧
        parse_from_str dateStr cfg.date_format = some date ∧
        fieldAt record cfg.amount_in = some inS ∧
        fieldAt record cfg.amount_out = some outS ∧
        resolveAmt inS outS description = .ok amt ∧
        t = { date := date
              description :=
                ((currentRule rules description).bind
                  TransactionRule.info).getD description
              payee := payee
              processing_account := cfg.processing_account
              other_account :=
                ((currentRule rules description).bind
                  TransactionRule.account).getD cfg.default_account
              magnitude :=
                if cfg.toggle_sign = some true then amt.neg else amt
              currency := cfg.currency } := by
  constructor
  · intro h
    unfold processRow at h
    split at h
    · exact absurd h (by simp)
    next payee hgp =>
      split at h
      · exact absurd h (by simp)
      next description hdesc =>
        split at h
        · exact absurd h (by simp)
        next dateStr hds =>
          split at h
          · exact absurd h (by simp)
          next date hpd =>
            split at h
            next inS outS hin hout =>
              split at h
              · exact absurd h (by simp)
              next amt hamt =>
                exact ⟨payee, description, dateStr, date, inS, outS, amt,
                  hgp, hdesc, hds, hpd, hin, hout, hamt,
                  (Except.ok.inj h).symm⟩
            · exact absurd h (by simp)
  · rintro ⟨payee, description, dateStr, date, inS, outS, amt,
      hgp, hdesc, hds, hpd, hin, hout, hamt, ht⟩
    unfold processRow
    simp only [hgp, hdesc, hds, hpd, hin, hout, hamt, ht]

lemma processAll_ok_mem (cfg : Config)
    (rules : Option (List (String × TransactionRule))) :
    ∀ (rs : List (List String)) (ts : List Transaction),
      processAll cfg rules rs = .ok ts →
      ∀ r ∈ rs, ∃ t, processRow cfg rules r = .ok t := by
  intro rs
  induction rs with
  | nil => intro ts _ r hr; exact absurd hr (by simp)
  | cons r rs ih =>
    intro ts h r' hr'
    unfold processAll at h
    split at h
    · exact absurd h (by simp)
    next t hpr =>
      split at h
      · exact absurd h (by simp)
      next ts' hall =>
        rcases List.mem_cons.mp hr' with h' | h'
        · exact ⟨t, h' ▸ hpr⟩
        · exact ih ts' hall r' h'

lemma runRows_false_ok (cfg : Config)
    (rules : Option (List (String × TransactionRule))) :
    ∀ (rs : List (List String)) (out : List String),
      runRows cfg rules rs false = .ok out →
      ∃ ts, processAll cfg rules rs = .ok ts ∧
        out = (ts.map (fun t => "" :: t.renderLines)).flatten := by
  intro rs
  induction rs with
  | nil =>
    intro out h
    refine ⟨[], rfl, ?_⟩
    simpa [runRows] using h.symm
  | cons r rs ih =>
    intro out h
    unfold runRows at h
    split at h
    · exact absurd h (by simp)
    next t hpr =>
      split at h
      · exact absurd h (by simp)
      next rest hrest =>
        obtain ⟨ts, hall, hout⟩ := ih rest hrest
        refine ⟨t :: ts, ?_, ?_⟩
        · unfold processAll
          rw [hpr, hall]
        · have := Except.ok.inj h
          simp [← this, hout]

lemma runRows_true_ok (cfg : Config)
    (rules : Option (List (String × TransactionRule)))
    (rs : List (List String)) (out : List String)
    (h : runRows cfg rules rs true = .ok out) :
    ∃ ts, processAll cfg rules rs = .ok ts ∧
      out = ((ts.map Transaction.renderLines).intersperse [""]).flatten := by
  match rs with
  | [] =>
    refine ⟨[], rfl, ?_⟩
    simpa [runRows] using h.symm
  | r :: rs =>
    unfold runRows at h
    split at h
    · exact absurd h (by simp)
    next t hpr =>
      split at h
      · exact absurd h (by simp)
      next rest hrest =>
        obtain ⟨ts, hall, hout⟩ := runRows_false_ok cfg rules rs rest hrest
        refine ⟨t :: ts, ?_, ?_⟩
        · unfold processAll
          rw [hpr, hall]
        · have hcons : ∀ (b : List String) (bs : List (List String)),
              ((b :: bs).intersperse [""]).flatten =
                b ++ (bs.map (fun x => "" :: x)).flatten := by
            intro b bs
            induction bs generalizing b with
            | nil => simp
            | cons c cs ihb => simp [List.intersperse_cons_cons, ihb c]
          have := Except.ok.inj h
          simp [← this, hout, hcons, List.map_map, Function.comp_def]

lemma string_append_ne_empty_right (a b : String) (hb : b.length ≠ 0) :
    a ++ b ≠ "" := by
  intro hc
  have hlen := congrArg String.length hc
  rw [String.length_append] at hlen
  have h0 : ("" : String).length = 0 := rfl
  rw [h0] at hlen
  omega

lemma renderLines_ne_empty (t : Transaction) :
    ∀ l ∈ t.renderLines, l ≠ "" := by
  intro l hl
  simp only [Transaction.renderLines, List.mem_cons, List.mem_singleton,
    List.not_mem_nil, or_false] at hl
  rcases hl with h | h | h
  · subst h
    exact string_append_ne_empty_right _ _ (by decide)
  · subst h
    unfold postingLine
    intro hc
    have hlen := congrArg String.length hc
    simp only [String.length_append] at hlen
    have h2 : ("  " : String).length = 2 := rfl
    have h0 : ("" : String).length = 0 := rfl
    rw [h2, h0] at hlen
    omega
  · subst h
    unfold postingLine
    intro hc
    have hlen := congrArg String.length hc
    simp only [String.length_append] at hlen
    have h2 : ("  " : String).length = 2 := rfl
    have h0 : ("" : String).length = 0 := rfl
    rw [h2, h0] at hlen
    omega

/-- The configuration of the spec's end-to-end example. -/
def cfgEx : Config :=
  { currency := "USD"
    processing_account := "Assets:Checking"
    default_account := "Expenses:Unknown"
    date_format := "%Y-%m-%d"
    date := 0
    amount_in := 1
    amount_out := 2
    description := 3
    payee := none
    delimiter := none
    skip := none
    toggle_sign := none
    quote := none }

/-- A rule table with one rule: key `A`, overriding both the description
(`B`) and the destination account. -/
def rulesEx : List (String × TransactionRule) :=
  [("A", { account := some "Expenses:Coffee", info := some "B" })]

/-- The transaction the example config produces for the out-column row
`["2023-01-06", "", "7.00", "Refund"]`. -/
def tRefund : Transaction :=
  { date := ⟨2023, 1, 6⟩
    description := "Refund"
    payee := none
    processing_account := "Assets:Checking"
    other_account := "Expenses:Unknown"
    magnitude := ⟨-700, 2⟩
    currency := "USD" }

/-- C1: for every emitted transaction, the amount on the first rendered
posting plus the amount on the second rendered posting is exactly zero in
exact decimal arithmetic; the second leg carries the literal negation of the
stored magnitude. -/
theorem trans_postings_sum_zero (t : Transaction) :
    t.renderLines.drop 1 =
      [postingLine t.processing_account t.magnitude t.currency,
       postingLine t.other_account t.magnitude.neg t.currency] ∧
    t.magnitude.toRat + t.magnitude.neg.toRat = 0 :=
  ⟨rfl, by rw [Dec.toRat_neg]; ring⟩

/-- C2: with `toggle_sign` off, a row's magnitude is the parsed in-column
value when that parses, else the negation of the parsed out-column value,
and when neither column parses the row never succeeds. -/
theorem magnitude_resolution_order (cfg : Config)
    (rules : Option (List (String × TransactionRule)))
    (record : List String) (t : Transaction) (inS outS : String)
    (hts : cfg.toggle_sign ≠ some true)
    (hin : fieldAt record cfg.amount_in = some inS)
    (hout : fieldAt record cfg.amount_out = some outS) :
    (processRow cfg rules record = .ok t →
      ((∃ a, parse_d128 inS = some a ∧ t.magnitude = a) ∨
        (parse_d128 inS = none ∧
          ∃ a, parse_d128 outS = some a ∧ t.magnitude = a.neg))) ∧
    (parse_d128 inS = none → parse_d128 outS = none →
      processRow cfg rules record ≠ .ok t) := by
  constructor
  · intro h
    obtain ⟨p, d, ds, dt, inS', outS', amt, hgp, hd, hds, hpd, hin', hout',
      hamt, ht⟩ := (processRow_ok_iff cfg rules record t).mp h
    have hi : inS' = inS := Option.some.inj (hin'.symm.trans hin)
    have ho : outS' = outS := Option.some.inj (hout'.symm.trans hout)
    rw [hi, ho] at hamt
    have hmag : t.magnitude = amt := by
      rw [ht]; exact if_neg hts
    unfold resolveAmt at hamt
    cases hpi : parse_d128 inS with
    | some a =>
      rw [hpi] at hamt
      exact Or.inl ⟨a, rfl, by rw [hmag, ← Except.ok.inj hamt]⟩
    | none =>
      rw [hpi] at hamt
      cases hpo : parse_d128 outS with
      | some a =>
        rw [hpo] at hamt
        exact Or.inr ⟨rfl, a, rfl, by rw [hmag, ← Except.ok.inj hamt]⟩
      | none =>
        rw [hpo] at hamt
        exact absurd hamt (by simp)
  · intro hpi hpo h
    obtain ⟨p, d, ds, dt, inS', outS', amt, hgp, hd, hds, hpd, hin', hout',
      hamt, ht⟩ := (processRow_ok_iff cfg rules record t).mp h
    have hi : inS' = inS := Option.some.inj (hin'.symm.trans hin)
    have ho : outS' = outS := Option.some.inj (hout'.symm.trans hout)
    rw [hi, ho] at hamt
    unfold resolveAmt at hamt
    rw [hpi, hpo] at hamt
    exact absurd hamt (by simp)

/-- Witness for C2 at the spec's out-column fallback example row. -/
theorem magnitude_resolution_order_witness :
    (processRow cfgEx none ["2023-01-06", "", "7.00", "Refund"] =
        .ok tRefund →
      ((∃ a, parse_d128 "" = some a ∧ tRefund.magnitude = a) ∨
        (parse_d128 "" = none ∧
          ∃ a, parse_d128 "7.00" = some a ∧ tRefund.magnitude = a.neg))) ∧
    (parse_d128 "" = none → parse_d128 "7.00" = none →
      processRow cfgEx none ["2023-01-06", "", "7.00", "Refund"] ≠
        .ok tRefund) :=
  magnitude_resolution_order cfgEx none ["2023-01-06", "", "7.00", "Refund"]
    tRefund "" "7.00" (by decide) rfl rfl

/-- C3: a successful row resolves its description and destination account by
a single exact lookup of the raw description in the rule table: a matching
rule's overrides win where present, otherwise the raw description and the
configured default account are used; an absent table or absent key gives the
same fallbacks. -/
theorem rule_lookup_resolution (cfg : Config)
    (rules : Option (List (String × TransactionRule)))
    (record : List String) (t : Transaction) (d : String)
    (hd : fieldAt record cfg.description = some d)
    (h : processRow cfg rules record = .ok t) :
    (∀ r, currentRule rules d = some r →
      t.description = r.info.getD d ∧
      t.other_account = r.account.getD cfg.default_account) ∧
    (currentRule rules d = none →
      t.description = d ∧ t.other_account = cfg.default_account) := by
  obtain ⟨p, d', ds, dt, inS, outS, amt, hgp, hd', hds, hpd, hin, hout,
    hamt, ht⟩ := (processRow_ok_iff cfg rules record t).mp h
  have hdd : d' = d := Option.some.inj (hd'.symm.trans hd)
  rw [hdd] at ht
  constructor
  · intro r hr
    rw [ht]
    simp [hr]
  · intro hr
    rw [ht]
    simp [hr]

/-- Witness for C3: the rule for `A` overrides both fields. -/
theorem rule_lookup_resolution_witness :
    (∀ r, currentRule (some rulesEx) "A" = some r →
      ({ date := ⟨2023, 1, 5⟩, description := "B", payee := none,
         processing_account := "Assets:Checking",
         other_account := "Expenses:Coffee", magnitude := ⟨1250, 2⟩,
         currency := "USD" } : Transaction).description = r.info.getD "A" ∧
      ({ date := ⟨2023, 1, 5⟩, description := "B", payee := none,
         processing_account := "Assets:Checking",
         other_account := "Expenses:Coffee", magnitude := ⟨1250, 2⟩,
         currency := "USD" } : Transaction).other_account =
        r.account.getD cfgEx.default_account) ∧
    (currentRule (some rulesEx) "A" = none →
      ({ date := ⟨2023, 1, 5⟩, description := "B", payee := none,
         processing_account := "Assets:Checking",
         other_account := "Expenses:Coffee", magnitude := ⟨1250, 2⟩,
         currency := "USD" } : Transaction).description = "A" ∧
      ({ date := ⟨2023, 1, 5⟩, description := "B", payee := none,
         processing_account := "Assets:Checking",
         other_account := "Expenses:Coffee", magnitude := ⟨1250, 2⟩,
         currency := "USD" } : Transaction).other_account =
        cfgEx.default_account) :=
  rule_lookup_resolution cfgEx (some rulesEx)
    ["2023-01-05", "12.50", "", "A"] _ "A" rfl rfl

/-- C4: if a row succeeds with `toggle_sign` disabled, the same row under the
same configuration with `toggle_sign` enabled succeeds with the negated
magnitude. -/
theorem toggle_sign_negates (cfg : Config)
    (rules : Option (List (String × TransactionRule)))
    (record : List String) (t : Transaction)
    (hts : cfg.toggle_sign ≠ some true)
    (h : processRow cfg rules record = .ok t) :
    ∃ t', processRow { cfg with toggle_sign := some true } rules record =
        .ok t' ∧
      t'.magnitude = t.magnitude.neg ∧
      t'.magnitude.toRat = -t.magnitude.toRat := by
  obtain ⟨p, d, ds, dt, inS, outS, amt, hgp, hd, hds, hpd, hin, hout,
    hamt, ht⟩ := (processRow_ok_iff cfg rules record t).mp h
  refine ⟨_, (processRow_ok_iff { cfg with toggle_sign := some true } rules
      record _).mpr
    ⟨p, d, ds, dt, inS, outS, amt, hgp, hd, hds, hpd, hin, hout, hamt,
      rfl⟩, ?_, ?_⟩
  · have h1 : ({ cfg with toggle_sign := some true } : Config).toggle_sign =
        some true := rfl
    have hmag : t.magnitude = amt := by rw [ht]; exact if_neg hts
    simp [h1, hmag]
  · have h1 : ({ cfg with toggle_sign := some true } : Config).toggle_sign =
        some true := rfl
    have hmag : t.magnitude = amt := by rw [ht]; exact if_neg hts
    simp [h1, hmag, Dec.toRat_neg]

/-- Witness for C4 at the end-to-end example row. -/
theorem toggle_sign_negates_witness :
    ∃ t', processRow { cfgEx with toggle_sign := some true } none
        [ "2023-01-05", "12.50", "", "Coffee Shop" ] = .ok t' ∧
      t'.magnitude =
        ({ date := ⟨2023, 1, 5⟩, description := "Coffee Shop", payee := none,
           processing_account := "Assets:Checking",
           other_account := "Expenses:Unknown", magnitude := ⟨1250, 2⟩,
           currency := "USD" } : Transaction).magnitude.neg ∧
      t'.magnitude.toRat =
        -({ date := ⟨2023, 1, 5⟩, description := "Coffee Shop", payee := none,
            processing_account := "Assets:Checking",
            other_account := "Expenses:Unknown", magnitude := ⟨1250, 2⟩,
            currency := "USD" } : Transaction).magnitude.toRat :=
  toggle_sign_negates cfgEx none ["2023-01-05", "12.50", "", "Coffee Shop"]
    _ (by decide) rfl

/-- C5 counterexample: the claimed end-to-end output (single space between
the `*` and the quoted description) is not what the program renders: with no
payee the header carries an empty payee slot, leaving two spaces. -/
theorem end_to_end_claimed_output_false :
    run cfgEx none [["2023-01-05", "12.50", "", "Coffee Shop"]] ≠
      .ok ["2023-01-05 * \"Coffee Shop\"",
           "  Assets:Checking 12.50 USD",
           "  Expenses:Unknown -12.50 USD"] := by
  intro h
  have hr : run cfgEx none [["2023-01-05", "12.50", "", "Coffee Shop"]] =
      .ok ["2023-01-05 *  \"Coffee Shop\"",
           "  Assets:Checking 12.50 USD",
           "  Expenses:Unknown -12.50 USD"] := rfl
  rw [hr] at h
  exact absurd (Except.ok.inj h) (by decide)

/-- C5 amended: the end-to-end example renders exactly these three lines,
with two spaces between `*` and the quoted description (the empty payee
slot). -/
theorem end_to_end_actual_output :
    run cfgEx none [["2023-01-05", "12.50", "", "Coffee Shop"]] =
      .ok ["2023-01-05 *  \"Coffee Shop\"",
           "  Assets:Checking 12.50 USD",
           "  Expenses:Unknown -12.50 USD"] := rfl

lemma header_no_payee (a b : String) :
    a ++ " * " ++ "" ++ " \"" ++ b ++ "\"" = a ++ " *  \"" ++ b ++ "\"" := by
  rw [String.append_empty]
  have h1 : a ++ " * " ++ " \"" = a ++ " *  \"" := by
    rw [String.append_assoc]
    rfl
  rw [h1]

/-- C6: when a payee column is configured and that field of the row is the
empty string, the transaction carries no payee and the rendered header has
no quoted payee segment at all (only the empty slot). -/
theorem empty_payee_omitted (cfg : Config)
    (rules : Option (List (String × TransactionRule)))
    (record : List String) (t : Transaction) (i : Int)
    (hp : cfg.payee = some i)
    (hf : fieldAt record i = some "")
    (h : processRow cfg rules record = .ok t) :
    t.payee = none ∧
    t.renderLines.head? =
      some (t.date.render ++ " *  \"" ++ t.description ++ "\"") := by
  obtain ⟨p, d, ds, dt, inS, outS, amt, hgp, hd, hds, hpd, hin, hout,
    hamt, ht⟩ := (processRow_ok_iff cfg rules record t).mp h
  have hpn : p = none := by
    simp [getPayee, hp, hf] at hgp
    exact hgp.symm
  constructor
  · rw [ht]
    exact hpn
  · rw [ht, hpn]
    simp only [Transaction.renderLines, List.head?_cons]
    exact congrArg some (header_no_payee _ _)

/-- The transaction of the end-to-end example (no payee). -/
def tCoffee : Transaction :=
  { date := ⟨2023, 1, 5⟩
    description := "Coffee Shop"
    payee := none
    processing_account := "Assets:Checking"
    other_account := "Expenses:Unknown"
    magnitude := ⟨1250, 2⟩
    currency := "USD" }

/-- Witness for C6: a config with payee column 4 and an empty payee field. -/
theorem empty_payee_omitted_witness :
    tCoffee.payee = none ∧
    tCoffee.renderLines.head? =
      some (tCoffee.date.render ++ " *  \"" ++ tCoffee.description ++ "\"")
    :=
  empty_payee_omitted { cfgEx with payee := some 4 } none
    ["2023-01-05", "12.50", "", "Coffee Shop", ""] tCoffee 4 rfl rfl rfl

/-- C7 counterexample: for the row with raw description `A` whose rule
rewrites the description to `B`, the amount error message names the raw
description `A`, and the resolved description `B` does not occur in the
message at all. -/
theorem amount_error_resolved_description_false :
    processRow cfgEx (some rulesEx) ["2023-01-05", "x", "y", "A"] =
      .error (.custom "Could not parse either in or out amounts for A") ∧
    ((rulesGet rulesEx "A").bind TransactionRule.info).getD "A" = "B" ∧
    ¬ ("B".toList <:+:
        "Could not parse either in or out amounts for A".toList) :=
  ⟨rfl, rfl, by decide⟩

/-- C7 amended: when a row reaches the amount stage and neither amount
column parses, the row fails with the message naming the row's raw
description (the CSV field before any rule `info` override). -/
theorem amount_error_names_raw_description (cfg : Config)
    (rules : Option (List (String × TransactionRule)))
    (record : List String) (p : Option String) (d ds : String) (dt : Date)
    (inS outS : String)
    (hgp : getPayee cfg record = .ok p)
    (hd : fieldAt record cfg.description = some d)
    (hds : fieldAt record cfg.date = some ds)
    (hpd : parse_from_str ds cfg.date_format = some dt)
    (hin : fieldAt record cfg.amount_in = some inS)
    (hout : fieldAt record cfg.amount_out = some outS)
    (hpi : parse_d128 inS = none) (hpo : parse_d128 outS = none) :
    processRow cfg rules record =
      .error (.custom ("Could not parse either in or out amounts for " ++ d))
    := by
  have hra : resolveAmt inS outS d =
      .error (.custom ("Could not parse either in or out amounts for " ++ d))
      := by
    simp only [resolveAmt, hpi, hpo]
  unfold processRow
  simp only [hgp, hd, hds, hpd, hin, hout, hra]

/-- Witness for C7's amended statement at a concrete unparseable row. -/
theorem amount_error_names_raw_description_witness :
    processRow cfgEx (some rulesEx) ["2023-01-06", "x", "y", "Refund"] =
      .error (.custom ("Could not parse either in or out amounts for " ++
        "Refund")) :=
  amount_error_names_raw_description cfgEx (some rulesEx)
    ["2023-01-06", "x", "y", "Refund"] none "Refund" "2023-01-06"
    ⟨2023, 1, 6⟩ "x" "y" rfl rfl rfl rfl rfl rfl rfl rfl

/-- C8: a processed record that lacks a field at any configured column
(payee, description, date, amount in, amount out) makes the whole run fail:
the run can never return successfully. -/
theorem missing_field_aborts_run (cfg : Config)
    (rules : Option (List (String × TransactionRule)))
    (rows : List (List String)) (record : List String) (out : List String)
    (hmem : record ∈ rows.drop (skipCount cfg))
    (hmiss : (∃ i, cfg.payee = some i ∧ fieldAt record i = none) ∨
      fieldAt record cfg.description = none ∨
      fieldAt record cfg.date = none ∨
      fieldAt record cfg.amount_in = none ∨
      fieldAt record cfg.amount_out = none) :
    run cfg rules rows ≠ .ok out := by
  intro h
  unfold run at h
  obtain ⟨ts, hall, -⟩ := runRows_true_ok cfg rules _ out h
  obtain ⟨t, hpr⟩ := processAll_ok_mem cfg rules _ ts hall record hmem
  obtain ⟨p, d, ds, dt, inS, outS, amt, hgp, hd, hds, hpd, hin, hout,
    hamt, ht⟩ := (processRow_ok_iff cfg rules record t).mp hpr
  rcases hmiss with ⟨i, hpc, hfn⟩ | hm | hm | hm | hm
  · simp [getPayee, hpc, hfn] at hgp
  · simp [hm] at hd
  · simp [hm] at hds
  · simp [hm] at hin
  · simp [hm] at hout

/-- Witness for C8: a one-field row under a config whose description column
is 3. -/
theorem missing_field_aborts_run_witness :
    run cfgEx none [["2023-01-05"]] ≠ .ok [] :=
  missing_field_aborts_run cfgEx none [["2023-01-05"]] ["2023-01-05"] []
    (by decide) (Or.inr (Or.inl rfl))

/-- C9: a fully successful run prints the rendered transactions joined by
exactly one blank line, with no blank line anywhere else: every printed line
of a transaction block is nonempty, so the first and last printed lines are
nonblank and consecutive blocks are separated by the single interspersed
empty line. -/
theorem blank_line_separation (cfg : Config)
    (rules : Option (List (String × TransactionRule)))
    (rows : List (List String)) (out : List String)
    (h : run cfg rules rows = .ok out) :
    ∃ ts, processAll cfg rules (rows.drop (skipCount cfg)) = .ok ts ∧
      out = ((ts.map Transaction.renderLines).intersperse [""]).flatten ∧
      ∀ t ∈ ts, ∀ l ∈ t.renderLines, l ≠ "" := by
  unfold run at h
  obtain ⟨ts, hall, hout⟩ := runRows_true_ok cfg rules _ out h
  exact ⟨ts, hall, hout, fun t _ => renderLines_ne_empty t⟩

/-- Witness for C9 on a two-row input: one blank line between the blocks. -/
theorem blank_line_separation_witness :
    ∃ ts, processAll cfgEx none
        ([["2023-01-05", "12.50", "", "Coffee Shop"],
          ["2023-01-06", "", "7.00", "Refund"]].drop (skipCount cfgEx)) =
        .ok ts ∧
      ["2023-01-05 *  \"Coffee Shop\"",
       "  Assets:Checking 12.50 USD",
       "  Expenses:Unknown -12.50 USD",
       "",
       "2023-01-06 *  \"Refund\"",
       "  Assets:Checking -7.00 USD",
       "  Expenses:Unknown 7.00 USD"] =
        ((ts.map Transaction.renderLines).intersperse [""]).flatten ∧
      ∀ t ∈ ts, ∀ l ∈ t.renderLines, l ≠ "" :=
  blank_line_separation cfgEx none
    [["2023-01-05", "12.50", "", "Coffee Shop"],
     ["2023-01-06", "", "7.00", "Refund"]]
    ["2023-01-05 *  \"Coffee Shop\"",
     "  Assets:Checking 12.50 USD",
     "  Expenses:Unknown -12.50 USD",
     "",
     "2023-01-06 *  \"Refund\"",
     "  Assets:Checking -7.00 USD",
     "  Expenses:Unknown 7.00 USD"] rfl

/-- C10: a negative configured `skip`, cast to an unsigned machine word,
exceeds any realistic record count, so every record is skipped and the run
succeeds with no output at all. -/
theorem negative_skip_skips_all (cfg : Config)
    (rules : Option (List (String × TransactionRule)))
    (rows : List (List String)) (k : Int)
    (hk : cfg.skip = some k) (hneg : k < 0) (hlb : -(2 : Int) ^ 63 ≤ k)
    (hlen : rows.length ≤ 2 ^ 63) :
    run cfg rules rows = .ok [] := by
  have hsc : rows.length ≤ skipCount cfg := by
    unfold skipCount
    rw [hk]
    simp only [Option.getD_some]
    have h64 : (2 : Int) ^ 64 = 18446744073709551616 := by norm_num
    have h63 : (2 : Int) ^ 63 = 9223372036854775808 := by norm_num
    have h63n : (2 : Nat) ^ 63 = 9223372036854775808 := by norm_num
    rw [h64]
    rw [h63] at hlb
    rw [h63n] at hlen
    omega
  unfold run
  rw [List.drop_eq_nil_of_le hsc]
  rfl

/-- Witness for C10 with `skip: -1` and one record. -/
theorem negative_skip_skips_all_witness :
    run { cfgEx with skip := some (-1) } none
      [["2023-01-05", "12.50", "", "Coffee Shop"]] = .ok [] :=
  negative_skip_skips_all { cfgEx with skip := some (-1) } none
    [["2023-01-05", "12.50", "", "Coffee Shop"]] (-1) rfl (by norm_num)
    (by norm_num) (by norm_num)
